import Mathlib

/-!
# Verification of the pathfinder tile-based scene builder (shallow embedding)

This file embeds, in Lean 4, the parts of the pathfinder renderer that the
specification's claims are about, and proves (or refutes) each claim.

The embedding follows the Rust sources:
* `renderer/src/builder.rs` — `SceneBuilder::build`, `ObjectBuilder::add_fill`,
  `ObjectBuilder::adjust_alpha_tile_backdrop`,
  `ObjectBuilder::get_or_allocate_alpha_tile_index`, `TileBatchBuilder`;
* `renderer/src/gpu_data.rs` — `AlphaTileId::new`;
* `renderer/src/gpu/renderer.rs` — the dice/bin capacity-retry protocol and
  `BlendModeExt::needs_readable_framebuffer`;
* `renderer/src/paint.rs` — `Paint::is_opaque`, `Paint::is_fully_transparent`;
* `builder/src/lib.rs` — the `PathBuilder` state machine.

Machine integers are modelled as `Nat`/`Int` (with explicit wrap-around where
the claims touch it); `f32` arithmetic is modelled exactly over `Rat`.
-/

/-! ## Colors and paints (`renderer/src/paint.rs`) -/

/-- Modelled from the spec: `ColorU` lives in the `pathfinder_color` crate,
which is not under `src/`.  A color is four 8-bit channels; per the spec a
solid color is opaque exactly when its alpha component is maximal (255), and
fully transparent exactly when its alpha component is zero. -/
structure ColorU where
  r : Nat
  g : Nat
  b : Nat
  a : Nat
deriving DecidableEq

/-- Modelled from the spec: `ColorU::is_opaque` — alpha is maximal. -/
def ColorU.isOpaque (c : ColorU) : Bool :=
  c.a == 255

/-- Modelled from the spec: `ColorU::is_fully_transparent` — alpha is zero. -/
def ColorU.isFullyTransparent (c : ColorU) : Bool :=
  c.a == 0

/-- A gradient, reduced to its stop colors (`Gradient::stops`). -/
structure GradientS where
  stopColors : List ColorU
deriving DecidableEq

/-- A pattern, reduced to whether its image is opaque (`pattern.image.is_opaque()`). -/
structure PatternS where
  imageIsOpaque : Bool
deriving DecidableEq

/-- `Paint` from `renderer/src/paint.rs`: solid color, gradient, or pattern. -/
inductive PaintS where
  | color (c : ColorU)
  | gradient (g : GradientS)
  | pattern (p : PatternS)
deriving DecidableEq

/-- `Paint::is_opaque` (paint.rs lines 85–93). -/
def PaintS.isOpaque : PaintS → Bool
  | .color c => c.isOpaque
  | .gradient g => g.stopColors.all (fun stop => stop.isOpaque)
  | .pattern p => p.imageIsOpaque

/-- `Paint::is_fully_transparent` (paint.rs lines 95–106).  Note: the source's
`Paint::Color` arm calls `color.is_opaque()`, and the `Paint::Pattern` arm
returns `false`. -/
def PaintS.isFullyTransparent : PaintS → Bool
  | .color c => c.isOpaque
  | .gradient g => g.stopColors.all (fun stop => stop.isFullyTransparent)
  | .pattern _ => false

/-! ## Scene-upload caching (`SceneBuilder::build`, builder.rs lines 186–208) -/

/-- `PrepareMode` from `renderer/src/options.rs` (the GPU transform payload is
irrelevant to the upload decision and omitted). -/
inductive PrepareModeS where
  | cpu
  | transformCPUBinGPU
  | gpu
deriving DecidableEq

/-- `LastSceneInfo` from `renderer/src/scene.rs`, reduced to the id/epoch pair
consulted by the upload decision. -/
structure LastSceneInfoS where
  sceneId : Nat
  sceneEpoch : Nat
deriving DecidableEq

/-- The `scene_is_dirty` computation of `SceneBuilder::build` (builder.rs lines
186–194), transcribed exactly: `(GPU, None)` is `true`, `(GPU, Some(last))` is
`last.scene_id == scene.id() && last.scene_epoch == scene.epoch()`, and
everything else is `false`.  `RenderCommand::UploadScene` is sent iff this
returns `true`. -/
def sceneIsDirty : PrepareModeS → Option LastSceneInfoS → Nat → Nat → Bool
  | .gpu, none, _, _ => true
  | .gpu, some last, sceneId, sceneEpoch =>
    last.sceneId == sceneId && last.sceneEpoch == sceneEpoch
  | .cpu, _, _, _ => false
  | .transformCPUBinGPU, _, _, _ => false

/-- The upload condition stated by the spec: upload when nothing was uploaded
yet, or when the scene id or the epoch differs from the last uploaded pair
(the cached upload is invalidated when either changes). -/
def uploadSceneExpectedBySpec : PrepareModeS → Option LastSceneInfoS → Nat → Nat → Bool
  | .gpu, none, _, _ => true
  | .gpu, some last, sceneId, sceneEpoch =>
    !(last.sceneId == sceneId) || !(last.sceneEpoch == sceneEpoch)
  | .cpu, _, _, _ => false
  | .transformCPUBinGPU, _, _, _ => false

/-! ## GPU capacity retry protocol (`renderer/src/gpu/renderer.rs`) -/

/-- `u32::next_power_of_two`: the least power of two that is ≥ the argument
(with `0` mapped to `1`). -/
def nextPowerOfTwo (n : Nat) : Nat :=
  2 ^ Nat.clog 2 n

/-- renderer.rs line 106: `INITIAL_ALLOCATED_MICROLINE_COUNT = 1024 * 16`. -/
def INITIAL_ALLOCATED_MICROLINE_COUNT : Nat := 1024 * 16

/-- renderer.rs line 107: `INITIAL_ALLOCATED_FILL_COUNT = 1024 * 16`. -/
def INITIAL_ALLOCATED_FILL_COUNT : Nat := 1024 * 16

/-- One dicing/binning attempt (tails of `Renderer::dice_segments`,
renderer.rs lines 890–898, and `Renderer::bin_segments_via_compute`, lines
1021–1026): the dispatch reports `needed` elements; if that exceeds the
allocated capacity, the capacity is set to `needed.next_power_of_two()` and
`none` (retry) is returned, otherwise the attempt succeeds.  Returns
(result, new capacity). -/
def capacityAttempt (needed alloc : Nat) : Option Nat × Nat :=
  if needed > alloc then (none, nextPowerOfTwo needed)
  else (some needed, alloc)

/-- The retry loop of `Renderer::prepare_tiles` (renderer.rs lines 1374–1414):
`for _ in 0..2 { attempt; if success break }` followed by `.expect(...)`, which
is fatal when both attempts fail.  `needed i` is the element count reported by
the dispatch on attempt `i`.  On success, returns
(number of attempts made, final capacity, reported count). -/
def capacityRetryLoop (needed : Nat → Nat) (alloc0 : Nat) :
    Except String (Nat × Nat × Nat) :=
  match capacityAttempt (needed 0) alloc0 with
  | (some count, alloc) => .ok (1, alloc, count)
  | (none, alloc1) =>
    match capacityAttempt (needed 1) alloc1 with
    | (some count, alloc) => .ok (2, alloc, count)
    | (none, _) => .error "Ran out of space when dicing or binning!"

/-- The dicing pass's retry loop (`allocated_microline_count`). -/
def diceSegmentsRetry (needed : Nat → Nat) (alloc0 : Nat) :
    Except String (Nat × Nat × Nat) :=
  capacityRetryLoop needed alloc0

/-- The binning pass's retry loop (`allocated_fill_count`). -/
def binSegmentsRetry (needed : Nat → Nat) (alloc0 : Nat) :
    Except String (Nat × Nat × Nat) :=
  capacityRetryLoop needed alloc0

/-! ## The `PathBuilder` state machine (`builder/src/lib.rs`) -/

/-- One drawing element of a contour: an on-curve endpoint, a quadratic
curve (control + endpoint), or a cubic curve (two controls + endpoint). -/
inductive PathElem (P : Type) where
  | endpoint (p : P)
  | quadratic (ctrl p : P)
  | cubic (ctrl0 ctrl1 p : P)
deriving DecidableEq

/-- A contour: its drawing elements plus the closed flag. -/
structure ContourS (P : Type) where
  elems : List (PathElem P)
  closed : Bool
deriving DecidableEq

/-- `Contour::is_empty`. -/
def ContourS.isEmpty (c : ContourS P) : Bool :=
  c.elems.isEmpty

/-- `Contour::new` / a cleared contour. -/
def ContourS.emptyC (P : Type) : ContourS P :=
  { elems := [], closed := false }

/-- `PathState` from builder/src/lib.rs: `Empty`, `Start(point)`, `End(point)`.
(`End` is spelled `atEnd` because `end` is a Lean keyword.) -/
inductive PathStateS (P : Type) where
  | empty
  | start (p : P)
  | atEnd (p : P)
deriving DecidableEq

/-- `PathBuilder` from builder/src/lib.rs. -/
structure PathBuilderS (P : Type) where
  outline : List (ContourS P)
  contour : ContourS P
  state : PathStateS P
deriving DecidableEq

/-- `PathBuilder::new`. -/
def PathBuilderS.newB (P : Type) : PathBuilderS P :=
  { outline := [], contour := ContourS.emptyC P, state := .empty }

/-- `PathBuilder::start` (builder/src/lib.rs lines 39–54): from `Empty` this is
a contract violation (`panic!`, modelled as `Except.error`); from `Start(p)`
the previous non-empty contour is flushed into the outline and a fresh contour
is begun at `p`; from `End(_)` it is a no-op. -/
def PathBuilderS.start (b : PathBuilderS P) : Except String (PathBuilderS P) :=
  match b.state with
  | .empty => .error "no starting point set. call move_to first"
  | .start p =>
    let b2 :=
      if !b.contour.isEmpty then
        { b with outline := b.outline ++ [b.contour], contour := ContourS.emptyC P }
      else b
    .ok { b2 with contour := { b2.contour with elems := b2.contour.elems ++ [.endpoint p] } }
  | .atEnd _ => .ok b

/-- `PathBuilder::move_to`: always valid, only sets the state. -/
def PathBuilderS.moveTo (b : PathBuilderS P) (p : P) : PathBuilderS P :=
  { b with state := .start p }

/-- `PathBuilder::line_to`. -/
def PathBuilderS.lineTo (b : PathBuilderS P) (p : P) : Except String (PathBuilderS P) := do
  let b2 ← b.start
  .ok { b2 with contour := { b2.contour with elems := b2.contour.elems ++ [.endpoint p] },
                state := .atEnd p }

/-- `PathBuilder::quadratic_curve_to`. -/
def PathBuilderS.quadraticCurveTo (b : PathBuilderS P) (c p : P) :
    Except String (PathBuilderS P) := do
  let b2 ← b.start
  .ok { b2 with contour := { b2.contour with elems := b2.contour.elems ++ [.quadratic c p] },
                state := .atEnd p }

/-- `PathBuilder::cubic_curve_to`. -/
def PathBuilderS.cubicCurveTo (b : PathBuilderS P) (c1 c2 p : P) :
    Except String (PathBuilderS P) := do
  let b2 ← b.start
  .ok { b2 with contour := { b2.contour with elems := b2.contour.elems ++ [.cubic c1 c2 p] },
                state := .atEnd p }

/-! ## The ObjectBuilder (tiling) state (`renderer/src/builder.rs`) -/

/-- `TILE_WIDTH` from `renderer/src/tiles.rs`.  Modelled from the spec:
`tiles.rs` is not under `src/`; the spec fixes tiles as 16×16 pixel squares. -/
def TILE_WIDTH : Nat := 16

/-- `TILE_HEIGHT` from `renderer/src/tiles.rs`.  Modelled from the spec (the
source asserts `TILE_WIDTH == TILE_HEIGHT`). -/
def TILE_HEIGHT : Nat := 16

/-- builder.rs line 44: `ALPHA_TILE_LEVEL_COUNT = 2`. -/
def ALPHA_TILE_LEVEL_COUNT : Nat := 2

/-- builder.rs line 45: `ALPHA_TILES_PER_LEVEL = 1 << (32 - ALPHA_TILE_LEVEL_COUNT + 1)`. -/
def ALPHA_TILES_PER_LEVEL : Nat := 2 ^ (32 - ALPHA_TILE_LEVEL_COUNT + 1)

/-- `AlphaTileId(!0)`, the sentinel for an unallocated alpha tile. -/
def INVALID_ALPHA_TILE_ID : Nat := 2 ^ 32 - 1

/-- `RectI` (integer rectangle, origin + size) from `pathfinder_geometry`.
Modelled from the spec: the geometry crate is a collaborator outside `src/`;
`contains_point` is the half-open containment `origin ≤ p < origin + size`,
matching the explicit bound checks of `adjust_alpha_tile_backdrop`. -/
structure RectIS where
  originX : Int
  originY : Int
  width : Int
  height : Int
deriving DecidableEq

/-- `RectI::contains_point` (half-open on the right/bottom). -/
def RectIS.containsPoint (r : RectIS) (x y : Int) : Bool :=
  decide (r.originX ≤ x) && decide (x < r.originX + r.width) &&
  decide (r.originY ≤ y) && decide (y < r.originY + r.height)

/-- `TileObjectPrimitive` from `renderer/src/gpu_data.rs`: per-tile record.
`backdrop` is an `i8` in the source; `alphaTileId` is a `u32` with
`INVALID_ALPHA_TILE_ID` meaning unallocated. -/
structure TileObjectPrimitiveS where
  tileX : Int
  tileY : Int
  alphaTileId : Nat
  pathId : Nat
  color : Nat
  backdrop : Int
  ctrl : Nat
deriving DecidableEq

/-- A default `TileObjectPrimitive`, used only as the out-of-bounds fallback of
list lookups (the source indexing panics out of bounds; all theorems carry
in-bounds hypotheses). -/
def defaultTile : TileObjectPrimitiveS :=
  { tileX := 0, tileY := 0, alphaTileId := INVALID_ALPHA_TILE_ID, pathId := 0,
    color := 0, backdrop := 0, ctrl := 0 }

/-- `Fill` from `renderer/src/gpu_data.rs`: a `LineSegmentU16` (8.8 fixed-point
sub-tile endpoints, flattened here) plus the alpha tile link. -/
structure FillS where
  fromX : Nat
  fromY : Nat
  toX : Nat
  toY : Nat
  link : Nat
deriving DecidableEq

/-- Wrap-around signed 8-bit addition result (`i8` arithmetic in release mode). -/
def wrapI8 (n : Int) : Int :=
  (n + 128) % 256 - 128

/-- Update the `i`-th element of a list in place (out of bounds: no change),
mirroring `vec[i] = ...` / `vec[i] += ...` under an in-bounds guarantee. -/
def listModify : List α → Nat → (α → α) → List α
  | [], _, _ => []
  | a :: t, 0, f => f a :: t
  | a :: t, n + 1, f => a :: listModify t n f

/-- The two per-level atomic counters `next_alpha_tile_indices` of
`SceneBuilder` (builder.rs line 53), modelled sequentially (parallel tiling
serialises through `fetch_add`, so every execution is one interleaving). -/
structure AlphaTileIndices where
  level0 : Nat
  level1 : Nat
deriving DecidableEq

/-- Read the counter of a level. -/
def AlphaTileIndices.get (s : AlphaTileIndices) : Fin 2 → Nat
  | ⟨0, _⟩ => s.level0
  | ⟨1, _⟩ => s.level1
  | ⟨n + 2, h⟩ => absurd h (by omega)

/-- `fetch_add(1)` on the counter of a level. -/
def AlphaTileIndices.bump (s : AlphaTileIndices) : Fin 2 → AlphaTileIndices
  | ⟨0, _⟩ => { s with level0 := s.level0 + 1 }
  | ⟨1, _⟩ => { s with level1 := s.level1 + 1 }
  | ⟨n + 2, h⟩ => absurd h (by omega)

/-- `AlphaTileId::new` (gpu_data.rs lines 419–426): fetch-and-increment the
level's counter, and return `(level * ALPHA_TILES_PER_LEVEL + index) as u32`.
The `u32` cast is the `% 2^32`. -/
def alphaTileIdNew (s : AlphaTileIndices) (level : Fin 2) : Nat × AlphaTileIndices :=
  ((level.val * ALPHA_TILES_PER_LEVEL + s.get level) % 2 ^ 32, s.bump level)

/-- Run a sequence of `AlphaTileId::new` calls, returning the ids in order. -/
def runAllocs (s : AlphaTileIndices) : List (Fin 2) → List Nat × AlphaTileIndices
  | [] => ([], s)
  | l :: t =>
    let r1 := alphaTileIdNew s l
    let r2 := runAllocs r1.2 t
    (r1.1 :: r2.1, r2.2)

/-- The CPU-binned `ObjectBuilder` state (builder.rs): the built path's tile
bounds, the per-column initial-backdrop accumulator `backdrops` (`Vec<i32>`,
one entry per tile column), the dense tile map `tiles` (row-major), and the
emitted fill list. -/
structure ObjectBuilderS where
  tileBounds : RectIS
  backdrops : List Int
  tiles : List TileObjectPrimitiveS
  fills : List FillS
deriving DecidableEq

/-- `ObjectBuilder::tile_coords_to_local_index_unchecked` (builder.rs lines
584–589): `(coords - origin).x + width * (coords - origin).y`. -/
def ObjectBuilderS.tileCoordsToLocalIndexUnchecked (b : ObjectBuilderS) (x y : Int) : Int :=
  (x - b.tileBounds.originX) + b.tileBounds.width * (y - b.tileBounds.originY)

/-- `ObjectBuilder::tile_coords_to_local_index` (builder.rs lines 591–598):
`None` when the coordinate is outside the tile bounds. -/
def ObjectBuilderS.tileCoordsToLocalIndex (b : ObjectBuilderS) (x y : Int) : Option Int :=
  if b.tileBounds.containsPoint x y then
    some (b.tileCoordsToLocalIndexUnchecked x y)
  else
    none

/-- `ObjectBuilder::adjust_alpha_tile_backdrop` (builder.rs lines 600–622):
out of the horizontal range or at/below the bottom of the tile bounds — no
change; above the tile bounds — accumulate the delta into the per-column
`backdrops`; inside the bounds — add the delta (i8 arithmetic) to the tile's
`backdrop` field. -/
def ObjectBuilderS.adjustAlphaTileBackdrop (b : ObjectBuilderS) (x y : Int) (delta : Int) :
    ObjectBuilderS :=
  let offX := x - b.tileBounds.originX
  let offY := y - b.tileBounds.originY
  if offX < 0 ∨ offX ≥ b.tileBounds.width ∨ offY ≥ b.tileBounds.height then
    b
  else if offY < 0 then
    { b with backdrops := listModify b.backdrops offX.toNat (fun v => v + delta) }
  else
    { b with tiles := listModify b.tiles (offX + b.tileBounds.width * offY).toNat
               (fun t => { t with backdrop := wrapI8 (t.backdrop + delta) }) }

/-- `ObjectBuilder::get_or_allocate_alpha_tile_index` (builder.rs lines
561–582): return the stored id if it is valid; otherwise allocate a fresh id
from level 0 of the scene builder's counters and store it. -/
def ObjectBuilderS.getOrAllocateAlphaTileIndex (b : ObjectBuilderS) (ctr : AlphaTileIndices)
    (x y : Int) : Nat × ObjectBuilderS × AlphaTileIndices :=
  let i := (b.tileCoordsToLocalIndexUnchecked x y).toNat
  let t := b.tiles.getD i defaultTile
  if t.alphaTileId < INVALID_ALPHA_TILE_ID then
    (t.alphaTileId, b, ctr)
  else
    let r := alphaTileIdNew ctr ⟨0, by omega⟩
    (r.1, { b with tiles := listModify b.tiles i (fun t0 => { t0 with alphaTileId := r.1 }) },
     r.2)

/-- A device-space line segment (`LineSegment2F`), with `f32` coordinates
modelled exactly over `Rat`. -/
structure LineSegment2FS where
  fromX : Rat
  fromY : Rat
  toX : Rat
  toY : Rat
deriving DecidableEq

/-- The 8.8 fixed-point quantization of `ObjectBuilder::add_fill` for a single
coordinate `v` relative to the tile's upper-left coordinate `u`: subtract,
scale by 256, clamp to `[0, TILE_WIDTH * 256 - 1]`, convert to integer
(truncation; after the clamp the value is non-negative, so this is the floor). -/
def quantizeFixed88 (v u : Rat) : Int :=
  Int.floor (min (max ((v - u) * 256) 0) (((TILE_WIDTH * 256 - 1 : Nat) : Rat)))

/-- The tile's upper-left corner coordinate (one axis):
`tile_coords * TILE_WIDTH` (the source asserts `TILE_WIDTH == TILE_HEIGHT`). -/
def tileUpperLeft (tileCoord : Int) : Rat :=
  ((TILE_WIDTH : Nat) : Rat) * (tileCoord : Rat)

/-- The quantized `from_x` endpoint of `add_fill`. -/
def fillFromX (seg : LineSegment2FS) (tileX : Int) : Int :=
  quantizeFixed88 seg.fromX (tileUpperLeft tileX)

/-- The quantized `from_y` endpoint of `add_fill`. -/
def fillFromY (seg : LineSegment2FS) (tileY : Int) : Int :=
  quantizeFixed88 seg.fromY (tileUpperLeft tileY)

/-- The quantized `to_x` endpoint of `add_fill`. -/
def fillToX (seg : LineSegment2FS) (tileX : Int) : Int :=
  quantizeFixed88 seg.toX (tileUpperLeft tileX)

/-- The quantized `to_y` endpoint of `add_fill`. -/
def fillToY (seg : LineSegment2FS) (tileY : Int) : Int :=
  quantizeFixed88 seg.toY (tileUpperLeft tileY)

/-- `ObjectBuilder::add_fill` (builder.rs lines 515–559): cull if the tile
coordinate is out of the path's tile bounds; quantize the segment endpoints to
8.8 fixed point clamped to the tile extent; cull if `from_x == to_x`;
otherwise allocate (or fetch) the tile's alpha tile id and push the `Fill`. -/
def ObjectBuilderS.addFill (b : ObjectBuilderS) (ctr : AlphaTileIndices)
    (seg : LineSegment2FS) (tileX tileY : Int) : ObjectBuilderS × AlphaTileIndices :=
  if (b.tileCoordsToLocalIndex tileX tileY).isNone then
    (b, ctr)
  else
    let fromX := fillFromX seg tileX
    let fromY := fillFromY seg tileY
    let toX := fillToX seg tileX
    let toY := fillToY seg tileY
    if fromX = toX then
      (b, ctr)
    else
      let r := b.getOrAllocateAlphaTileIndex ctr tileX tileY
      ({ r.2.1 with
           fills := r.2.1.fills ++
             [{ fromX := fromX.toNat, fromY := fromY.toNat,
                toX := toX.toNat, toY := toY.toNat, link := r.1 }] },
       r.2.2)

/-! ## Tile batch building (`TileBatchBuilder`, builder.rs lines 882–1092)

The batching decision compares the built draw path's
{color texture, filter, blend mode} triple for equality; the triple is
abstracted as a value of a type `K` with decidable equality. -/

/-- The render commands produced by the tile batch builder.  `prepareTiles`
carries the `PrepareTilesBatch`'s batch id; `drawTiles` carries the
`DrawTileBatch`'s batch id and its {color texture, filter, blend mode}
triple. -/
inductive RenderCmdB (K : Type) where
  | prepareTiles (batchId : Nat)
  | drawTiles (batchId : Nat) (key : K)
  | pushRenderTarget (renderTargetId : Nat)
  | popRenderTarget
deriving DecidableEq

/-- A built draw path, reduced to what the batching loop consults: its
{color texture, filter, blend mode} triple and its optional clip path id. -/
structure BuiltDrawPathS (K : Type) where
  key : K
  clipPathId : Option Nat
deriving DecidableEq

/-- `TileBatchBuilder` state (builder.rs lines 882–890): the queued
`PrepareTiles` commands, the queued draw-phase commands, the clip batch's
path count (batch id 0), the clip ids already pushed into the clip batch
(`clip_id_to_path_batch_index`, reduced to its key set), and `next_batch_id`
(starting at 1; 0 is the clip batch). -/
structure TileBatchBuilderS (K : Type) where
  prepareCommands : List (RenderCmdB K)
  drawCommands : List (RenderCmdB K)
  clipBatchPathCount : Nat
  clipSeen : List Nat
  nextBatchId : Nat
deriving DecidableEq

/-- `TileBatchBuilder::new` (builder.rs lines 893–907). -/
def TileBatchBuilderS.initial (K : Type) : TileBatchBuilderS K :=
  { prepareCommands := [], drawCommands := [], clipBatchPathCount := 0,
    clipSeen := [], nextBatchId := 1 }

/-- Flush the pending batch pair, queueing its `PrepareTiles` and its
`DrawTiles` (builder.rs lines 950–954 and 1011–1014). -/
def flushBatches (st : TileBatchBuilderS K) (cur : Option (Nat × K)) : TileBatchBuilderS K :=
  match cur with
  | none => st
  | some (id, k) =>
    { st with prepareCommands := st.prepareCommands ++ [.prepareTiles id],
              drawCommands := st.drawCommands ++ [.drawTiles id k] }

/-- The clip-deduplication step of the draw-path loop (builder.rs lines
975–1005): a first reference to a clip path id pushes that clip path into the
clip batch (batch id 0, counted by `clipBatchPathCount`) and caches the id;
later references reuse the cache. -/
def applyClipDedup (st : TileBatchBuilderS K) (c : Option Nat) : TileBatchBuilderS K :=
  match c with
  | none => st
  | some cid =>
    if st.clipSeen.contains cid then st
    else { st with clipSeen := st.clipSeen ++ [cid],
                   clipBatchPathCount := st.clipBatchPathCount + 1 }

/-- One iteration of the draw-path loop of
`build_tile_batches_for_draw_path_display_item` (builder.rs lines 919–1009),
for the CPU-binned mode (`built_paths` present, so no path is skipped): reuse
the current batch when the {color texture, filter, blend mode} triple matches,
otherwise flush it; then create a fresh batch if none is pending; then
deduplicate the path's clip reference into the clip batch (batch id 0). -/
def stepDrawPath [DecidableEq K] (st : TileBatchBuilderS K) (cur : Option (Nat × K))
    (p : BuiltDrawPathS K) : TileBatchBuilderS K × Option (Nat × K) :=
  let flushed :=
    match cur with
    | some (id, k) =>
      if p.key = k then (st, some (id, k)) else (flushBatches st (some (id, k)), none)
    | none => (st, none)
  let created :=
    match flushed.2 with
    | none => ({ flushed.1 with nextBatchId := flushed.1.nextBatchId + 1 },
               some (flushed.1.nextBatchId, p.key))
    | some c => (flushed.1, some c)
  (applyClipDedup created.1 p.clipPathId, created.2)

/-- The draw-path loop of one `DisplayItem::DrawPaths` item, from an explicit
(state, pending batch) accumulator, ending with the final flush. -/
def buildItemAux [DecidableEq K] (st : TileBatchBuilderS K) (cur : Option (Nat × K)) :
    List (BuiltDrawPathS K) → TileBatchBuilderS K
  | [] => flushBatches st cur
  | p :: rest =>
    let r := stepDrawPath st cur p
    buildItemAux r.1 r.2 rest

/-- `TileBatchBuilder::build_tile_batches_for_draw_path_display_item`
(builder.rs lines 909–1015): the batching loop starts with no pending batch
and flushes the pending batch at the end of the item. -/
def buildTileBatchesForDrawPathDisplayItem [DecidableEq K] (st : TileBatchBuilderS K)
    (paths : List (BuiltDrawPathS K)) : TileBatchBuilderS K :=
  buildItemAux st none paths

/-- A display item, as consumed by `SceneBuilder::build_tile_batches`
(builder.rs lines 326–346); `drawPaths` carries the built draw paths of its
id range. -/
inductive DisplayItemS (K : Type) where
  | pushRenderTarget (renderTargetId : Nat)
  | popRenderTarget
  | drawPaths (paths : List (BuiltDrawPathS K))

/-- Processing of one display item (builder.rs lines 327–346):
`PushRenderTarget`/`PopRenderTarget` are queued into `draw_commands`;
`DrawPaths` runs the batching loop. -/
def processDisplayItem [DecidableEq K] (st : TileBatchBuilderS K) :
    DisplayItemS K → TileBatchBuilderS K
  | .pushRenderTarget rid =>
    { st with drawCommands := st.drawCommands ++ [.pushRenderTarget rid] }
  | .popRenderTarget =>
    { st with drawCommands := st.drawCommands ++ [.popRenderTarget] }
  | .drawPaths ps => buildTileBatchesForDrawPathDisplayItem st ps

/-- The display-list loop of `SceneBuilder::build_tile_batches`. -/
def buildDisplayList [DecidableEq K] (st : TileBatchBuilderS K)
    (dl : List (DisplayItemS K)) : TileBatchBuilderS K :=
  dl.foldl processDisplayItem st

/-- `TileBatchBuilder::send_to` (builder.rs lines 1081–1091): the clip batch's
`PrepareTiles` (batch id 0) first when it is non-empty, then every queued
`PrepareTiles`, then every queued draw-phase command. -/
def TileBatchBuilderS.sendTo (st : TileBatchBuilderS K) : List (RenderCmdB K) :=
  (if st.clipBatchPathCount > 0 then [RenderCmdB.prepareTiles 0] else [])
    ++ st.prepareCommands ++ st.drawCommands

/-- Is a command a `DrawTiles` command? -/
def isDrawTiles : RenderCmdB K → Bool
  | .drawTiles _ _ => true
  | _ => false

/-- Number of maximal runs of equal keys continuing a run whose last key is
`k` (the continuation counts a new run exactly at each key change). -/
def runCountCont [DecidableEq K] (k : K) : List K → Nat
  | [] => 0
  | a :: t => (if k = a then 0 else 1) + runCountCont a t

/-- Number of maximal runs of equal adjacent keys in a list. -/
def runCount [DecidableEq K] : List K → Nat
  | [] => 0
  | a :: t => 1 + runCountCont a t

/-! ## `Start` and `needs_readable_framebuffer` (builder.rs lines 143–159 and
364–385; renderer.rs lines 2697–2732) -/

/-- `BlendMode` from `pathfinder_content::effects` (all 27 variants). -/
inductive BlendModeS where
  | clear
  | srcOver
  | destOver
  | srcIn
  | destIn
  | srcOut
  | destOut
  | srcAtop
  | destAtop
  | xor
  | lighter
  | copy
  | lighten
  | darken
  | multiply
  | screen
  | hardLight
  | overlay
  | colorDodge
  | colorBurn
  | softLight
  | difference
  | exclusion
  | hue
  | saturation
  | color
  | luminosity
deriving DecidableEq

/-- `BlendModeExt::needs_readable_framebuffer` (renderer.rs lines 2701–2731). -/
def BlendModeS.needsReadableFramebuffer : BlendModeS → Bool
  | .clear | .srcOver | .destOver | .srcIn | .destIn | .srcOut | .destOut
  | .srcAtop | .destAtop | .xor | .lighter | .copy => false
  | .lighten | .darken | .multiply | .screen | .hardLight | .overlay
  | .colorDodge | .colorBurn | .softLight | .difference | .exclusion
  | .hue | .saturation | .color | .luminosity => true

/-- A display item as stored in the scene (`scene.rs` `DisplayItem`):
`DrawPaths` carries a draw-path id range `[startId, endId)`. -/
inductive DisplayItemC where
  | pushRenderTarget (renderTargetId : Nat)
  | popRenderTarget
  | drawPaths (startId endId : Nat)
deriving DecidableEq

/-- The scene, reduced to what `SceneBuilder::build`'s `Start` command
consults: the number of clip paths, the blend mode of each draw path (indexed
by draw path id), and the display list. -/
structure SceneS where
  clipPathCount : Nat
  drawPathBlendModes : List BlendModeS
  displayList : List DisplayItemC
deriving DecidableEq

/-- The loop of `SceneBuilder::needs_readable_framebuffer` (builder.rs lines
364–385): `framebuffer_nesting` is incremented at `PushRenderTarget`,
decremented at `PopRenderTarget`; a `DrawPaths` item is skipped when
`framebuffer_nesting > 0` and otherwise returns `true` as soon as some draw
path in its range has a blend mode that needs a readable framebuffer.
(Out-of-range draw path ids fall back to `SrcOver`; the source would panic,
and all theorems keep ranges in bounds.) -/
def needsReadableFramebufferLoop (blends : List BlendModeS) :
    Int → List DisplayItemC → Bool
  | _, [] => false
  | nesting, .pushRenderTarget _ :: rest =>
    needsReadableFramebufferLoop blends (nesting + 1) rest
  | nesting, .popRenderTarget :: rest =>
    needsReadableFramebufferLoop blends (nesting - 1) rest
  | nesting, .drawPaths a b :: rest =>
    if nesting > 0 then
      needsReadableFramebufferLoop blends nesting rest
    else if (List.range' a (b - a)).any
        (fun i => (blends.getD i .srcOver).needsReadableFramebuffer) then
      true
    else
      needsReadableFramebufferLoop blends nesting rest

/-- `SceneBuilder::needs_readable_framebuffer`. -/
def sceneNeedsReadableFramebuffer (scene : SceneS) : Bool :=
  needsReadableFramebufferLoop scene.drawPathBlendModes 0 scene.displayList

/-- The blend modes the claim enumerates as needing a readable destination
framebuffer. -/
def readableDestinationBlendModes : List BlendModeS :=
  [.lighten, .darken, .multiply, .screen, .hardLight, .overlay, .colorDodge,
   .colorBurn, .softLight, .difference, .exclusion, .hue, .saturation,
   .color, .luminosity]

/-- The spec's reading of the scan: some `DrawPaths` item at render-target
nesting depth exactly 0 contains a draw path whose blend mode is one of the
fifteen readable-destination modes. -/
def specNeedsReadable (blends : List BlendModeS) : Int → List DisplayItemC → Bool
  | _, [] => false
  | depth, .pushRenderTarget _ :: rest => specNeedsReadable blends (depth + 1) rest
  | depth, .popRenderTarget :: rest => specNeedsReadable blends (depth - 1) rest
  | depth, .drawPaths a b :: rest =>
    (decide (depth = 0) &&
      (List.range' a (b - a)).any
        (fun i => readableDestinationBlendModes.contains (blends.getD i .srcOver)))
    || specNeedsReadable blends depth rest

/-- Well-formed render-target nesting: starting from `n`, the nesting counter
never goes negative (every `PopRenderTarget` has a matching earlier push). -/
def nestingOk : Int → List DisplayItemC → Bool
  | _, [] => true
  | n, .pushRenderTarget _ :: rest => nestingOk (n + 1) rest
  | n, .popRenderTarget :: rest => decide (0 ≤ n - 1) && nestingOk (n - 1) rest
  | n, .drawPaths _ _ :: rest => nestingOk n rest

/-- An abstraction of the `RenderCommand`s relevant to the `Start` claim. -/
inductive BuildCmd where
  | start (pathCount : Nat) (needsReadableFramebuffer : Bool)
  | otherCommand (tag : Nat)
deriving DecidableEq

/-- The head of `SceneBuilder::build` (builder.rs lines 143–159): the `Start`
command — carrying `clip_path_count + draw_path_count` and the readable-
framebuffer scan — is sent before everything else; `rest` abstracts the
remainder of the emitted stream (paint, fill and tile commands). -/
def sceneBuilderCommandStream (scene : SceneS) (rest : List BuildCmd) : List BuildCmd :=
  BuildCmd.start (scene.clipPathCount + scene.drawPathBlendModes.length)
      (sceneNeedsReadableFramebuffer scene)
    :: rest

/-! ## Helper lemmas -/

theorem listModify_length (l : List α) (i : Nat) (f : α → α) :
    (listModify l i f).length = l.length := by
  induction l generalizing i with
  | nil => rfl
  | cons a t ih =>
    cases i with
    | zero => rfl
    | succ n => simp [listModify, ih]

theorem listModify_getD_self (l : List α) (i : Nat) (f : α → α) (d : α) (h : i < l.length) :
    (listModify l i f).getD i d = f (l.getD i d) := by
  induction l generalizing i with
  | nil => simp at h
  | cons a t ih =>
    cases i with
    | zero => rfl
    | succ n =>
      simp only [listModify, List.getD_cons_succ]
      exact ih n (by simpa using h)

theorem listModify_getD_ne (l : List α) (i j : Nat) (f : α → α) (d : α) (h : j ≠ i) :
    (listModify l i f).getD j d = l.getD j d := by
  induction l generalizing i j with
  | nil => rfl
  | cons a t ih =>
    cases i with
    | zero =>
      cases j with
      | zero => exact absurd rfl h
      | succ m => rfl
    | succ n =>
      cases j with
      | zero => rfl
      | succ m =>
        simp only [listModify, List.getD_cons_succ]
        exact ih n m (fun hc => h (by omega))

theorem nextPowerOfTwo_isPow (n : Nat) : ∃ k, nextPowerOfTwo n = 2 ^ k :=
  ⟨Nat.clog 2 n, rfl⟩

theorem le_nextPowerOfTwo (n : Nat) : n ≤ nextPowerOfTwo n :=
  Nat.le_pow_clog (by omega) n

/-! ## Claim theorems -/

/-- **C10.** `Paint::is_fully_transparent` applied to a solid-color paint
returns exactly what `Paint::is_opaque` does — true precisely when the color's
alpha component is maximal — and applied to any pattern paint it returns
`false`. -/
theorem paint_isFullyTransparent_characterization :
    (∀ c : ColorU,
      (PaintS.color c).isFullyTransparent = (PaintS.color c).isOpaque ∧
      ((PaintS.color c).isFullyTransparent = true ↔ c.a = 255)) ∧
    (∀ p : PatternS, (PaintS.pattern p).isFullyTransparent = false) := by
  refine ⟨fun c => ⟨rfl, ?_⟩, fun p => rfl⟩
  simp [PaintS.isFullyTransparent, ColorU.isOpaque]

/-- **C3 (counterexample evaluation).** The claim says `UploadScene` is sent
when the current scene's id or epoch differs from the last uploaded pair and
skipped when both match.  The code (builder.rs line 192) computes
`last_scene_id == scene.id() && last_scene_epoch == scene.epoch()` for
`scene_is_dirty`, i.e. the exact opposite on the `Some` branch: with a
previously uploaded scene `(id 1, epoch 2)` and a current scene
`(id 1, epoch 3)` — an epoch bump — no upload is sent, while with an unchanged
scene `(id 1, epoch 3)` the upload is re-sent. -/
theorem sceneIsDirty_inverted_eval :
    sceneIsDirty .gpu (some { sceneId := 1, sceneEpoch := 2 }) 1 3 = false ∧
    uploadSceneExpectedBySpec .gpu (some { sceneId := 1, sceneEpoch := 2 }) 1 3 = true ∧
    sceneIsDirty .gpu (some { sceneId := 1, sceneEpoch := 3 }) 1 3 = true ∧
    uploadSceneExpectedBySpec .gpu (some { sceneId := 1, sceneEpoch := 3 }) 1 3 = false := by
  exact ⟨rfl, rfl, rfl, rfl⟩

/-- **C6.** For both the dicing and the binning compute passes: the initial
capacities are powers of two; when the reported count fits the capacity the
first attempt succeeds with the capacity unchanged; when it exceeds the
capacity, the capacity becomes the next power of two of the reported count and
the dispatch is rerun, succeeding iff the re-reported count fits; a second
insufficient attempt is fatal; and every success uses at most two attempts and
ends with a power-of-two capacity at least the reported count. -/
theorem capacity_retry_protocol (needed : Nat → Nat) (alloc0 : Nat)
    (hpow : ∃ k, alloc0 = 2 ^ k) :
    (∃ k, INITIAL_ALLOCATED_MICROLINE_COUNT = 2 ^ k) ∧
    (∃ k, INITIAL_ALLOCATED_FILL_COUNT = 2 ^ k) ∧
    (needed 0 ≤ alloc0 →
      diceSegmentsRetry needed alloc0 = .ok (1, alloc0, needed 0) ∧
      binSegmentsRetry needed alloc0 = .ok (1, alloc0, needed 0)) ∧
    (alloc0 < needed 0 → needed 1 ≤ nextPowerOfTwo (needed 0) →
      diceSegmentsRetry needed alloc0 = .ok (2, nextPowerOfTwo (needed 0), needed 1) ∧
      binSegmentsRetry needed alloc0 = .ok (2, nextPowerOfTwo (needed 0), needed 1)) ∧
    (alloc0 < needed 0 → nextPowerOfTwo (needed 0) < needed 1 →
      diceSegmentsRetry needed alloc0 =
        .error "Ran out of space when dicing or binning!" ∧
      binSegmentsRetry needed alloc0 =
        .error "Ran out of space when dicing or binning!") ∧
    (∀ attempts finalAlloc count,
      diceSegmentsRetry needed alloc0 = .ok (attempts, finalAlloc, count) →
      attempts ≤ 2 ∧ count ≤ finalAlloc ∧ ∃ k, finalAlloc = 2 ^ k) := by
  refine ⟨⟨14, by decide⟩, ⟨14, by decide⟩, ?_, ?_, ?_, ?_⟩
  · intro h
    constructor <;>
      simp [diceSegmentsRetry, binSegmentsRetry, capacityRetryLoop, capacityAttempt,
            Nat.not_lt.mpr h]
  · intro h1 h2
    constructor <;>
      simp [diceSegmentsRetry, binSegmentsRetry, capacityRetryLoop, capacityAttempt,
            h1, Nat.not_lt.mpr h2]
  · intro h1 h2
    constructor <;>
      simp [diceSegmentsRetry, binSegmentsRetry, capacityRetryLoop, capacityAttempt, h1, h2]
  · intro attempts finalAlloc count hok
    by_cases h0 : needed 0 ≤ alloc0
    · simp only [diceSegmentsRetry, capacityRetryLoop, capacityAttempt,
                 Nat.not_lt.mpr h0, if_neg (Nat.not_lt.mpr h0)] at hok
      obtain ⟨h1, h2, h3⟩ := by
        simpa using hok
      subst h1; subst h2; subst h3
      exact ⟨by omega, h0, hpow⟩
    · have h0l : alloc0 < needed 0 := Nat.lt_of_not_le h0
      by_cases h1 : needed 1 ≤ nextPowerOfTwo (needed 0)
      · simp only [diceSegmentsRetry, capacityRetryLoop, capacityAttempt, if_pos h0l,
                   if_neg (Nat.not_lt.mpr h1)] at hok
        obtain ⟨ha, hb, hc⟩ := by
          simpa using hok
        subst ha; subst hb; subst hc
        exact ⟨by omega, h1, nextPowerOfTwo_isPow _⟩
      · have h1l : nextPowerOfTwo (needed 0) < needed 1 := Nat.lt_of_not_le h1
        simp [diceSegmentsRetry, capacityRetryLoop, capacityAttempt, if_pos h0l, h1l] at hok

/-- **C6 witness.** The protocol at a concrete input: initial capacity 4,
reported counts 9 then 9 — one reallocation to 16 and a successful rerun. -/
theorem capacity_retry_protocol_witness :
    diceSegmentsRetry (fun _ => 9) 4 = .ok (2, nextPowerOfTwo 9, 9) ∧
    binSegmentsRetry (fun _ => 9) 4 = .ok (2, nextPowerOfTwo 9, 9) :=
  (capacity_retry_protocol (fun _ => 9) 4 ⟨2, rfl⟩).2.2.2.1 (by decide)
    (by have := le_nextPowerOfTwo 9; omega)

/-- **C9.** The `PathBuilder` state machine: `move_to` succeeds in every state
(it only sets the state to `Start(p)`); `line_to`, `quadratic_curve_to` and
`cubic_curve_to` issued in the `Empty` state abort fatally; and a drawing
command issued in the `Start(q)` state with a non-empty pending contour first
flushes that contour into the outline and begins a new contour at `q`. -/
theorem pathBuilder_state_machine {P : Type} :
    (∀ (b : PathBuilderS P) (p : P),
      b.moveTo p = { b with state := .start p }) ∧
    (∀ (b : PathBuilderS P) (c1 c2 p : P), b.state = .empty →
      b.lineTo p = .error "no starting point set. call move_to first" ∧
      b.quadraticCurveTo c1 p = .error "no starting point set. call move_to first" ∧
      b.cubicCurveTo c1 c2 p = .error "no starting point set. call move_to first") ∧
    (∀ (b : PathBuilderS P) (c1 c2 p q : P), b.state = .start q →
      b.contour.elems ≠ [] →
      b.lineTo p = .ok { outline := b.outline ++ [b.contour],
                         contour := { elems := [.endpoint q, .endpoint p], closed := false },
                         state := .atEnd p } ∧
      b.quadraticCurveTo c1 p =
        .ok { outline := b.outline ++ [b.contour],
              contour := { elems := [.endpoint q, .quadratic c1 p], closed := false },
              state := .atEnd p } ∧
      b.cubicCurveTo c1 c2 p =
        .ok { outline := b.outline ++ [b.contour],
              contour := { elems := [.endpoint q, .cubic c1 c2 p], closed := false },
              state := .atEnd p }) := by
  refine ⟨fun b p => rfl, fun b c1 c2 p hs => ?_, fun b c1 c2 p q hs hne => ?_⟩
  · refine ⟨?_, ?_, ?_⟩ <;>
      simp [PathBuilderS.lineTo, PathBuilderS.quadraticCurveTo, PathBuilderS.cubicCurveTo,
            PathBuilderS.start, hs, Bind.bind, Except.bind]
  · have hninl : b.contour.isEmpty = false := by
      simpa [ContourS.isEmpty, List.isEmpty_iff] using hne
    refine ⟨?_, ?_, ?_⟩ <;>
      simp [PathBuilderS.lineTo, PathBuilderS.quadraticCurveTo, PathBuilderS.cubicCurveTo,
            PathBuilderS.start, hs, hninl, Bind.bind, Except.bind, ContourS.emptyC]

/-- **C9 witness.** A concrete run: from a builder (over integer points) in
state `Start 7` with a non-empty pending contour, `line_to 9` flushes the
contour into the outline and begins a new contour at the stored start point;
from the fresh empty builder, `line_to 9` is a fatal contract violation. -/
theorem pathBuilder_state_machine_witness :
    (PathBuilderS.lineTo
        { outline := [],
          contour := { elems := [PathElem.endpoint (5 : Int)], closed := false },
          state := .start 7 } 9 =
      .ok { outline := [{ elems := [PathElem.endpoint 5], closed := false }],
            contour := { elems := [.endpoint 7, .endpoint 9], closed := false },
            state := .atEnd 9 }) ∧
    (PathBuilderS.lineTo (PathBuilderS.newB Int) 9 =
      .error "no starting point set. call move_to first") := by
  constructor
  · exact (pathBuilder_state_machine.2.2
      { outline := [],
        contour := { elems := [PathElem.endpoint (5 : Int)], closed := false },
        state := .start 7 } 0 0 9 7 rfl (by decide)).1
  · exact (pathBuilder_state_machine.2.1 (PathBuilderS.newB Int) 0 0 9 rfl).1

/-- **C1.** `ObjectBuilder::adjust_alpha_tile_backdrop`: when the coordinate's
column lies within the tile bounds but its row is above them, the delta is
accumulated into the per-column `backdrops` entry of that column and nothing
else changes; when the coordinate lies inside the bounds, the delta is added
(i8 arithmetic) to that tile's `backdrop` field and nothing else changes; when
the column is outside the bounds or the row is at or below the bottom, the
state is unchanged. -/
theorem adjust_alpha_tile_backdrop_routing (b : ObjectBuilderS) (x y delta : Int)
    (hw : 0 ≤ b.tileBounds.width) (hh : 0 ≤ b.tileBounds.height)
    (hlenB : b.backdrops.length = b.tileBounds.width.toNat)
    (hlenT : b.tiles.length = (b.tileBounds.width * b.tileBounds.height).toNat) :
    (0 ≤ x - b.tileBounds.originX → x - b.tileBounds.originX < b.tileBounds.width →
     y - b.tileBounds.originY < 0 →
      ((b.adjustAlphaTileBackdrop x y delta).backdrops.getD
          (x - b.tileBounds.originX).toNat 0 =
        b.backdrops.getD (x - b.tileBounds.originX).toNat 0 + delta) ∧
      (∀ j, j ≠ (x - b.tileBounds.originX).toNat →
        (b.adjustAlphaTileBackdrop x y delta).backdrops.getD j 0 =
          b.backdrops.getD j 0) ∧
      (b.adjustAlphaTileBackdrop x y delta).tiles = b.tiles ∧
      (b.adjustAlphaTileBackdrop x y delta).fills = b.fills ∧
      (b.adjustAlphaTileBackdrop x y delta).tileBounds = b.tileBounds) ∧
    (b.tileBounds.containsPoint x y = true →
      (((b.adjustAlphaTileBackdrop x y delta).tiles.getD
          ((x - b.tileBounds.originX) +
            b.tileBounds.width * (y - b.tileBounds.originY)).toNat defaultTile).backdrop =
        wrapI8
          ((b.tiles.getD
              ((x - b.tileBounds.originX) +
                b.tileBounds.width * (y - b.tileBounds.originY)).toNat
              defaultTile).backdrop + delta)) ∧
      (((b.adjustAlphaTileBackdrop x y delta).tiles.getD
          ((x - b.tileBounds.originX) +
            b.tileBounds.width * (y - b.tileBounds.originY)).toNat
          defaultTile).alphaTileId =
        (b.tiles.getD
            ((x - b.tileBounds.originX) +
              b.tileBounds.width * (y - b.tileBounds.originY)).toNat
            defaultTile).alphaTileId) ∧
      (∀ j, j ≠ ((x - b.tileBounds.originX) +
          b.tileBounds.width * (y - b.tileBounds.originY)).toNat →
        (b.adjustAlphaTileBackdrop x y delta).tiles.getD j defaultTile =
          b.tiles.getD j defaultTile) ∧
      (b.adjustAlphaTileBackdrop x y delta).backdrops = b.backdrops ∧
      (b.adjustAlphaTileBackdrop x y delta).fills = b.fills ∧
      (b.adjustAlphaTileBackdrop x y delta).tileBounds = b.tileBounds) ∧
    (x - b.tileBounds.originX < 0 ∨ b.tileBounds.width ≤ x - b.tileBounds.originX ∨
     b.tileBounds.height ≤ y - b.tileBounds.originY →
      b.adjustAlphaTileBackdrop x y delta = b) := by
  refine ⟨?_, ?_, ?_⟩
  · intro hx0 hxw hy
    have hguard : ¬(x - b.tileBounds.originX < 0 ∨
        x - b.tileBounds.originX ≥ b.tileBounds.width ∨
        y - b.tileBounds.originY ≥ b.tileBounds.height) := by
      push_neg
      refine ⟨by omega, by omega, by omega⟩
    have hres : b.adjustAlphaTileBackdrop x y delta =
        { b with backdrops := listModify b.backdrops (x - b.tileBounds.originX).toNat (fun v => v + delta) } := by
      simp only [ObjectBuilderS.adjustAlphaTileBackdrop]
      rw [if_neg hguard, if_pos hy]
    have hidx : (x - b.tileBounds.originX).toNat < b.backdrops.length := by
      omega
    refine ⟨?_, ?_, by rw [hres], by rw [hres], by rw [hres]⟩
    · rw [hres]
      exact listModify_getD_self _ _ _ _ hidx
    · intro j hj
      rw [hres]
      exact listModify_getD_ne _ _ _ _ _ hj
  · intro hin
    have hin4 : b.tileBounds.originX ≤ x ∧ x < b.tileBounds.originX + b.tileBounds.width ∧
        b.tileBounds.originY ≤ y ∧ y < b.tileBounds.originY + b.tileBounds.height := by
      simpa [RectIS.containsPoint, Bool.and_eq_true, decide_eq_true_eq, and_assoc]
        using hin
    obtain ⟨h1, h2, h3, h4⟩ := hin4
    have hguard : ¬(x - b.tileBounds.originX < 0 ∨
        x - b.tileBounds.originX ≥ b.tileBounds.width ∨
        y - b.tileBounds.originY ≥ b.tileBounds.height) := by
      push_neg
      refine ⟨by omega, by omega, by omega⟩
    have hynn : ¬ (y - b.tileBounds.originY < 0) := by omega
    have hres : b.adjustAlphaTileBackdrop x y delta =
        { b with tiles := listModify b.tiles ((x - b.tileBounds.originX) + b.tileBounds.width * (y - b.tileBounds.originY)).toNat (fun t => { t with backdrop := wrapI8 (t.backdrop + delta) }) } := by
      simp only [ObjectBuilderS.adjustAlphaTileBackdrop]
      rw [if_neg hguard, if_neg hynn]
    have hiworks : (x - b.tileBounds.originX) +
        b.tileBounds.width * (y - b.tileBounds.originY) <
        b.tileBounds.width * b.tileBounds.height := by
      have hoy : y - b.tileBounds.originY ≤ b.tileBounds.height - 1 := by omega
      have hmul : b.tileBounds.width * (y - b.tileBounds.originY) ≤
          b.tileBounds.width * (b.tileBounds.height - 1) :=
        mul_le_mul_of_nonneg_left hoy (by omega)
      have hdist : b.tileBounds.width * (b.tileBounds.height - 1) =
          b.tileBounds.width * b.tileBounds.height - b.tileBounds.width := by ring
      omega
    have hnn : 0 ≤ (x - b.tileBounds.originX) +
        b.tileBounds.width * (y - b.tileBounds.originY) := by
      have hbase : 0 ≤ b.tileBounds.width * (y - b.tileBounds.originY) :=
        mul_nonneg (by omega) (by omega)
      omega
    have hidx : ((x - b.tileBounds.originX) +
        b.tileBounds.width * (y - b.tileBounds.originY)).toNat < b.tiles.length := by
      omega
    have hget := listModify_getD_self b.tiles
      ((x - b.tileBounds.originX) + b.tileBounds.width * (y - b.tileBounds.originY)).toNat
      (fun t => { t with backdrop := wrapI8 (t.backdrop + delta) }) defaultTile hidx
    refine ⟨?_, ?_, ?_, by rw [hres], by rw [hres], by rw [hres]⟩
    · rw [hres]
      simp only [hget]
    · rw [hres]
      simp only [hget]
    · intro j hj
      rw [hres]
      exact listModify_getD_ne _ _ _ _ _ hj
  · intro hout
    have hguard : (x - b.tileBounds.originX < 0 ∨
        x - b.tileBounds.originX ≥ b.tileBounds.width ∨
        y - b.tileBounds.originY ≥ b.tileBounds.height) := by
      rcases hout with h | h | h
      · exact Or.inl h
      · exact Or.inr (Or.inl (by omega))
      · exact Or.inr (Or.inr (by omega))
    simp only [ObjectBuilderS.adjustAlphaTileBackdrop]
    rw [if_pos hguard]

/-- **C1 witness.** A concrete builder with tile bounds origin (10, 20) and
size 2×2: adjusting at tile (11, 19) — column 1 in range, row above the
bounds — adds the delta 5 to `backdrops[1]`. -/
theorem adjust_alpha_tile_backdrop_routing_witness :
    (ObjectBuilderS.adjustAlphaTileBackdrop
        { tileBounds := { originX := 10, originY := 20, width := 2, height := 2 },
          backdrops := [0, 0],
          tiles := [defaultTile, defaultTile, defaultTile, defaultTile],
          fills := [] } 11 19 5).backdrops.getD 1 0 =
      ([0, 0] : List Int).getD 1 0 + 5 :=
  ((adjust_alpha_tile_backdrop_routing
      { tileBounds := { originX := 10, originY := 20, width := 2, height := 2 },
        backdrops := [0, 0],
        tiles := [defaultTile, defaultTile, defaultTile, defaultTile],
        fills := [] } 11 19 5 (by decide) (by decide) (by decide) (by decide)).1
    (by decide) (by decide) (by decide)).1

theorem quantizeFixed88_nonneg (v u : Rat) : 0 ≤ quantizeFixed88 v u := by
  unfold quantizeFixed88
  rw [Int.le_floor]
  push_cast
  exact le_min (le_max_right _ _) (by positivity)

theorem tileCoordsToLocalIndex_isNone (b : ObjectBuilderS) (x y : Int) :
    (b.tileCoordsToLocalIndex x y).isNone = !(b.tileBounds.containsPoint x y) := by
  unfold ObjectBuilderS.tileCoordsToLocalIndex
  by_cases h : b.tileBounds.containsPoint x y <;> simp [h]

theorem getOrAllocate_preserves (b : ObjectBuilderS) (ctr : AlphaTileIndices) (x y : Int) :
    (b.getOrAllocateAlphaTileIndex ctr x y).2.1.fills = b.fills ∧
    (b.getOrAllocateAlphaTileIndex ctr x y).2.1.backdrops = b.backdrops ∧
    (b.getOrAllocateAlphaTileIndex ctr x y).2.1.tileBounds = b.tileBounds := by
  simp only [ObjectBuilderS.getOrAllocateAlphaTileIndex]
  split <;> exact ⟨rfl, rfl, rfl⟩

/-- **C2.** `ObjectBuilder::add_fill` pushes a `Fill` iff the tile coordinate
lies within the path's tile bounds and the clamped 8.8 fixed-point quantized
endpoints satisfy `from_x ≠ to_x`; in every other case it returns with the
builder and the allocator unchanged; consequently no `Fill` with
`from_x = to_x` ever appears in the output fill list. -/
theorem add_fill_characterization (b : ObjectBuilderS) (ctr : AlphaTileIndices)
    (seg : LineSegment2FS) (tileX tileY : Int) :
    (b.tileBounds.containsPoint tileX tileY = true →
      fillFromX seg tileX ≠ fillToX seg tileX →
      (b.addFill ctr seg tileX tileY).1.fills =
        b.fills ++
          [{ fromX := (fillFromX seg tileX).toNat, fromY := (fillFromY seg tileY).toNat,
             toX := (fillToX seg tileX).toNat, toY := (fillToY seg tileY).toNat,
             link := (b.getOrAllocateAlphaTileIndex ctr tileX tileY).1 }]) ∧
    (b.tileBounds.containsPoint tileX tileY = false →
      b.addFill ctr seg tileX tileY = (b, ctr)) ∧
    (fillFromX seg tileX = fillToX seg tileX →
      b.addFill ctr seg tileX tileY = (b, ctr)) ∧
    ((∀ f ∈ b.fills, f.fromX ≠ f.toX) →
      ∀ f ∈ (b.addFill ctr seg tileX tileY).1.fills, f.fromX ≠ f.toX) := by
  have hpush : b.tileBounds.containsPoint tileX tileY = true →
      fillFromX seg tileX ≠ fillToX seg tileX →
      (b.addFill ctr seg tileX tileY).1.fills =
        b.fills ++
          [{ fromX := (fillFromX seg tileX).toNat, fromY := (fillFromY seg tileY).toNat,
             toX := (fillToX seg tileX).toNat, toY := (fillToY seg tileY).toNat,
             link := (b.getOrAllocateAlphaTileIndex ctr tileX tileY).1 }] := by
    intro hin hne
    have hguard : (b.tileCoordsToLocalIndex tileX tileY).isNone = false := by
      rw [tileCoordsToLocalIndex_isNone, hin]
      rfl
    simp only [ObjectBuilderS.addFill, hguard, Bool.false_eq_true, if_false, if_neg hne]
    rw [(getOrAllocate_preserves b ctr tileX tileY).1]
  have hout : b.tileBounds.containsPoint tileX tileY = false →
      b.addFill ctr seg tileX tileY = (b, ctr) := by
    intro h
    have hguard : (b.tileCoordsToLocalIndex tileX tileY).isNone = true := by
      rw [tileCoordsToLocalIndex_isNone, h]
      rfl
    simp only [ObjectBuilderS.addFill, hguard, if_true]
  have hdeg : fillFromX seg tileX = fillToX seg tileX →
      b.addFill ctr seg tileX tileY = (b, ctr) := by
    intro heq
    by_cases hc : b.tileBounds.containsPoint tileX tileY
    · have hguard : (b.tileCoordsToLocalIndex tileX tileY).isNone = false := by
        rw [tileCoordsToLocalIndex_isNone, hc]
        rfl
      simp only [ObjectBuilderS.addFill, hguard, Bool.false_eq_true, if_false, if_pos heq]
    · exact hout (by simpa using hc)
  refine ⟨hpush, hout, hdeg, ?_⟩
  intro hinv f hf
  by_cases hc : b.tileBounds.containsPoint tileX tileY
  · by_cases hne : fillFromX seg tileX = fillToX seg tileX
    · rw [hdeg hne] at hf
      exact hinv f hf
    · rw [hpush hc hne] at hf
      rcases List.mem_append.mp hf with hmem | hmem
      · exact hinv f hmem
      · have hfeq := List.mem_singleton.mp hmem
        subst hfeq
        have h1 := quantizeFixed88_nonneg seg.fromX (tileUpperLeft tileX)
        have h2 := quantizeFixed88_nonneg seg.toX (tileUpperLeft tileX)
        simp only [ne_eq]
        intro hcontra
        apply hne
        unfold fillFromX fillToX
        unfold fillFromX fillToX at hcontra
        omega
  · rw [hout (by simpa using hc)] at hf
    exact hinv f hf

/-- **C2 witness.** A concrete builder with a single 1×1-tile bounds at the
origin: adding the segment from (2, 3) to (5, 3) inside tile (0, 0) pushes
exactly one fill, quantized to 8.8 fixed point (512 → 1280), linked to the
freshly allocated alpha tile id 0; the vertical segment from (2, 3) to (2, 9)
is culled (`from_x = to_x`) and changes nothing. -/
theorem add_fill_characterization_witness :
    ((ObjectBuilderS.addFill
        { tileBounds := { originX := 0, originY := 0, width := 1, height := 1 },
          backdrops := [0], tiles := [defaultTile], fills := [] }
        { level0 := 0, level1 := 0 }
        { fromX := 2, fromY := 3, toX := 5, toY := 3 } 0 0).1.fills =
      [{ fromX := 512, fromY := 768, toX := 1280, toY := 768, link := 0 }]) ∧
    (ObjectBuilderS.addFill
        { tileBounds := { originX := 0, originY := 0, width := 1, height := 1 },
          backdrops := [0], tiles := [defaultTile], fills := [] }
        { level0 := 0, level1 := 0 }
        { fromX := 2, fromY := 3, toX := 2, toY := 9 } 0 0 =
      ({ tileBounds := { originX := 0, originY := 0, width := 1, height := 1 },
         backdrops := [0], tiles := [defaultTile], fills := [] },
       { level0 := 0, level1 := 0 })) := by
  have e1 : fillFromX { fromX := 2, fromY := 3, toX := 5, toY := 3 } 0 = 512 := by
    unfold fillFromX quantizeFixed88 tileUpperLeft TILE_WIDTH
    norm_num [min_def, max_def]
  have e2 : fillFromY { fromX := 2, fromY := 3, toX := 5, toY := 3 } 0 = 768 := by
    unfold fillFromY quantizeFixed88 tileUpperLeft TILE_WIDTH
    norm_num [min_def, max_def]
  have e3 : fillToX { fromX := 2, fromY := 3, toX := 5, toY := 3 } 0 = 1280 := by
    unfold fillToX quantizeFixed88 tileUpperLeft TILE_WIDTH
    norm_num [min_def, max_def]
  have e4 : fillToY { fromX := 2, fromY := 3, toX := 5, toY := 3 } 0 = 768 := by
    unfold fillToY quantizeFixed88 tileUpperLeft TILE_WIDTH
    norm_num [min_def, max_def]
  have e5 : fillFromX { fromX := 2, fromY := 3, toX := 2, toY := 9 } 0 = 512 := by
    unfold fillFromX quantizeFixed88 tileUpperLeft TILE_WIDTH
    norm_num [min_def, max_def]
  have e6 : fillToX { fromX := 2, fromY := 3, toX := 2, toY := 9 } 0 = 512 := by
    unfold fillToX quantizeFixed88 tileUpperLeft TILE_WIDTH
    norm_num [min_def, max_def]
  constructor
  · have h := (add_fill_characterization
      { tileBounds := { originX := 0, originY := 0, width := 1, height := 1 },
        backdrops := [0], tiles := [defaultTile], fills := [] }
      { level0 := 0, level1 := 0 }
      { fromX := 2, fromY := 3, toX := 5, toY := 3 } 0 0).1 (by decide)
      (by rw [e1, e3]; decide)
    rw [e1, e2, e3, e4] at h
    simpa using h
  · exact (add_fill_characterization
      { tileBounds := { originX := 0, originY := 0, width := 1, height := 1 },
        backdrops := [0], tiles := [defaultTile], fills := [] }
      { level0 := 0, level1 := 0 }
      { fromX := 2, fromY := 3, toX := 2, toY := 9 } 0 0).2.2.1 (by rw [e5, e6])

theorem AlphaTileIndices.get_bump_self (s : AlphaTileIndices) (l : Fin 2) :
    (s.bump l).get l = s.get l + 1 := by
  rcases l with ⟨v, hv⟩
  interval_cases v <;> rfl

theorem AlphaTileIndices.get_bump_le (s : AlphaTileIndices) (l l2 : Fin 2) :
    s.get l2 ≤ (s.bump l).get l2 := by
  rcases l with ⟨v, hv⟩
  rcases l2 with ⟨w, hw⟩
  interval_cases v <;> interval_cases w <;> simp [AlphaTileIndices.get, AlphaTileIndices.bump]

theorem AlphaTileIndices.get_bump_ne (s : AlphaTileIndices) (l l2 : Fin 2) (h : l ≠ l2) :
    (s.bump l).get l2 = s.get l2 := by
  rcases l with ⟨v, hv⟩
  rcases l2 with ⟨w, hw⟩
  interval_cases v <;> interval_cases w <;>
    first
      | rfl
      | exact absurd rfl h

theorem ALPHA_TILES_PER_LEVEL_eq : ALPHA_TILES_PER_LEVEL = 2 ^ 31 := rfl

theorem runAllocs_mem_shape (ls : List (Fin 2)) (s : AlphaTileIndices)
    (hb : ∀ l : Fin 2, s.get l + ls.count l ≤ ALPHA_TILES_PER_LEVEL) :
    ∀ p ∈ ls.zip (runAllocs s ls).1, ∃ idx,
      s.get p.1 ≤ idx ∧ idx < ALPHA_TILES_PER_LEVEL ∧
      p.2 = p.1.val * ALPHA_TILES_PER_LEVEL + idx := by
  induction ls generalizing s with
  | nil => intro p hp; simp [runAllocs] at hp
  | cons l t ih =>
    intro p hp
    have hheadlt : s.get l < ALPHA_TILES_PER_LEVEL := by
      have := hb l
      have hcount : (l :: t).count l = t.count l + 1 := by
        simp [List.count_cons]
      omega
    have hlv : l.val ≤ 1 := by omega
    have hmod : (l.val * ALPHA_TILES_PER_LEVEL + s.get l) % 2 ^ 32 =
        l.val * ALPHA_TILES_PER_LEVEL + s.get l := by
      apply Nat.mod_eq_of_lt
      rw [ALPHA_TILES_PER_LEVEL_eq] at hheadlt ⊢
      have : l.val * 2 ^ 31 ≤ 2 ^ 31 := by
        calc l.val * 2 ^ 31 ≤ 1 * 2 ^ 31 := Nat.mul_le_mul_right _ hlv
        _ = 2 ^ 31 := by ring
      omega
    simp only [runAllocs, alphaTileIdNew, List.zip_cons_cons, List.mem_cons] at hp
    rcases hp with hp | hp
    · subst hp
      exact ⟨s.get l, le_refl _, hheadlt, hmod⟩
    · have hb2 : ∀ l2 : Fin 2, (s.bump l).get l2 + t.count l2 ≤ ALPHA_TILES_PER_LEVEL := by
        intro l2
        by_cases he : l = l2
        · subst he
          rw [AlphaTileIndices.get_bump_self]
          have := hb l
          have hcount : (l :: t).count l = t.count l + 1 := by
            simp [List.count_cons]
          omega
        · rw [AlphaTileIndices.get_bump_ne s l l2 he]
          have := hb l2
          have hcount : (l :: t).count l2 = t.count l2 := by
            simp [List.count_cons, Ne.symm he]
          omega
      obtain ⟨idx, hge, hlt, heq⟩ := ih (s.bump l) hb2 p hp
      exact ⟨idx, le_trans (AlphaTileIndices.get_bump_le s l p.1) hge, hlt, heq⟩

theorem level_ranges_disjoint {a b x y : Nat} (ha : a ≤ 1) (hb : b ≤ 1) (hne : a ≠ b)
    (hx : x < 2 ^ 31) (hy : y < 2 ^ 31) :
    a * 2 ^ 31 + x ≠ b * 2 ^ 31 + y := by
  rcases Nat.le_one_iff_eq_zero_or_eq_one.mp ha with h | h <;>
    rcases Nat.le_one_iff_eq_zero_or_eq_one.mp hb with g | g <;>
      subst h <;> subst g <;> omega

theorem runAllocs_pairwise (ls : List (Fin 2)) (s : AlphaTileIndices)
    (hb : ∀ l : Fin 2, s.get l + ls.count l ≤ ALPHA_TILES_PER_LEVEL) :
    List.Pairwise (fun a b : Fin 2 × Nat => a.2 ≠ b.2 ∧ (a.1 = b.1 → a.2 < b.2))
      (ls.zip (runAllocs s ls).1) := by
  induction ls generalizing s with
  | nil => simp [runAllocs]
  | cons l t ih =>
    have hheadlt : s.get l < ALPHA_TILES_PER_LEVEL := by
      have := hb l
      have hcount : (l :: t).count l = t.count l + 1 := by
        simp [List.count_cons]
      omega
    have hlv : l.val ≤ 1 := by omega
    have hmod : (l.val * ALPHA_TILES_PER_LEVEL + s.get l) % 2 ^ 32 =
        l.val * ALPHA_TILES_PER_LEVEL + s.get l := by
      apply Nat.mod_eq_of_lt
      rw [ALPHA_TILES_PER_LEVEL_eq] at hheadlt ⊢
      have : l.val * 2 ^ 31 ≤ 2 ^ 31 := by
        calc l.val * 2 ^ 31 ≤ 1 * 2 ^ 31 := Nat.mul_le_mul_right _ hlv
        _ = 2 ^ 31 := by ring
      omega
    have hb2 : ∀ l2 : Fin 2, (s.bump l).get l2 + t.count l2 ≤ ALPHA_TILES_PER_LEVEL := by
      intro l2
      by_cases he : l = l2
      · subst he
        rw [AlphaTileIndices.get_bump_self]
        have := hb l
        have hcount : (l :: t).count l = t.count l + 1 := by
          simp [List.count_cons]
        omega
      · rw [AlphaTileIndices.get_bump_ne s l l2 he]
        have := hb l2
        have hcount : (l :: t).count l2 = t.count l2 := by
          simp [List.count_cons, Ne.symm he]
        omega
    simp only [runAllocs, alphaTileIdNew, List.zip_cons_cons]
    refine List.pairwise_cons.mpr ⟨?_, ih (s.bump l) hb2⟩
    intro q hq
    obtain ⟨q1, q2⟩ := q
    obtain ⟨idx, hge, hlt, heq⟩ := runAllocs_mem_shape t (s.bump l) hb2 (q1, q2) hq
    simp only at hge hlt heq
    rw [hmod]
    simp only at heq ⊢
    by_cases he : l = q1
    · subst he
      rw [AlphaTileIndices.get_bump_self] at hge
      refine ⟨?_, fun _ => ?_⟩
      · rw [heq]
        omega
      · rw [heq]
        omega
    · have hvne : l.val ≠ q1.val := fun hc => he (Fin.ext hc)
      have hql : q1.val ≤ 1 := by omega
      refine ⟨?_, fun hc => absurd hc he⟩
      rw [heq]
      rw [ALPHA_TILES_PER_LEVEL_eq] at hheadlt hlt ⊢
      exact level_ranges_disjoint hlv hql hvne hheadlt hlt

/-- **C8.** Provided each level's allocation count stays below
`ALPHA_TILES_PER_LEVEL`: (1) every sequence of `AlphaTileId::new` calls
returns pairwise-distinct ids, and within a level each id is strictly greater
than every id previously returned; (2)
`ObjectBuilder::get_or_allocate_alpha_tile_index` allocates a fresh id
(bumping the level-0 counter and storing the id) only the first time a tile
coordinate is touched, and any subsequent call for that coordinate returns the
stored id without changing any state. -/
theorem alpha_tile_id_allocation :
    (∀ (s : AlphaTileIndices) (ls : List (Fin 2)),
      (∀ l : Fin 2, s.get l + ls.count l ≤ ALPHA_TILES_PER_LEVEL) →
      List.Pairwise (fun a b : Fin 2 × Nat => a.2 ≠ b.2 ∧ (a.1 = b.1 → a.2 < b.2))
        (ls.zip (runAllocs s ls).1)) ∧
    (∀ (b : ObjectBuilderS) (ctr : AlphaTileIndices) (x y : Int),
      (b.tileCoordsToLocalIndexUnchecked x y).toNat < b.tiles.length →
      (b.tiles.getD (b.tileCoordsToLocalIndexUnchecked x y).toNat defaultTile).alphaTileId =
        INVALID_ALPHA_TILE_ID →
      ctr.level0 < ALPHA_TILES_PER_LEVEL →
      (b.getOrAllocateAlphaTileIndex ctr x y).1 = ctr.level0 ∧
      ((b.getOrAllocateAlphaTileIndex ctr x y).2.1.tiles.getD
          (b.tileCoordsToLocalIndexUnchecked x y).toNat defaultTile).alphaTileId =
        ctr.level0 ∧
      (b.getOrAllocateAlphaTileIndex ctr x y).2.2 =
        { level0 := ctr.level0 + 1, level1 := ctr.level1 } ∧
      (b.getOrAllocateAlphaTileIndex ctr x y).2.1.getOrAllocateAlphaTileIndex
          ((b.getOrAllocateAlphaTileIndex ctr x y).2.2) x y =
        ((b.getOrAllocateAlphaTileIndex ctr x y).1,
         (b.getOrAllocateAlphaTileIndex ctr x y).2.1,
         (b.getOrAllocateAlphaTileIndex ctr x y).2.2)) := by
  refine ⟨fun s ls hb => runAllocs_pairwise ls s hb, ?_⟩
  intro b ctr x y hi hsent hctr
  have h32 : ctr.level0 < 2 ^ 32 := by
    rw [ALPHA_TILES_PER_LEVEL_eq] at hctr
    omega
  have hget0 : ctr.get ⟨0, by omega⟩ = ctr.level0 := rfl
  have hbump0 : ctr.bump ⟨0, by omega⟩ = { level0 := ctr.level0 + 1, level1 := ctr.level1 } :=
    rfl
  have hidval : (alphaTileIdNew ctr ⟨0, by omega⟩).1 = ctr.level0 := by
    simp only [alphaTileIdNew, hget0]
    rw [Nat.zero_mul, Nat.zero_add]
    exact Nat.mod_eq_of_lt h32
  have hfirst : b.getOrAllocateAlphaTileIndex ctr x y =
      (ctr.level0,
       { b with tiles := listModify b.tiles (b.tileCoordsToLocalIndexUnchecked x y).toNat (fun t0 => { t0 with alphaTileId := ctr.level0 }) },
       { level0 := ctr.level0 + 1, level1 := ctr.level1 }) := by
    simp only [ObjectBuilderS.getOrAllocateAlphaTileIndex, hsent]
    rw [if_neg (lt_irrefl INVALID_ALPHA_TILE_ID)]
    simp only [alphaTileIdNew, hget0, hbump0]
    rw [Nat.zero_mul, Nat.zero_add, Nat.mod_eq_of_lt h32]
  have hstore := listModify_getD_self b.tiles
    (b.tileCoordsToLocalIndexUnchecked x y).toNat
    (fun t0 => { t0 with alphaTileId := ctr.level0 }) defaultTile hi
  refine ⟨by rw [hfirst], ?_, by rw [hfirst], ?_⟩
  · rw [hfirst]
    simp only [hstore]
  · rw [hfirst]
    have hvalid : ctr.level0 < INVALID_ALPHA_TILE_ID := by
      rw [ALPHA_TILES_PER_LEVEL_eq] at hctr
      unfold INVALID_ALPHA_TILE_ID
      omega
    simp only [ObjectBuilderS.getOrAllocateAlphaTileIndex,
               ObjectBuilderS.tileCoordsToLocalIndexUnchecked]
    simp only [ObjectBuilderS.tileCoordsToLocalIndexUnchecked] at hstore
    rw [hstore]
    simp only [if_pos hvalid]

/-- **C8 witness.** A concrete run: allocating at levels 0, 1, 0 from fresh
counters yields pairwise-distinct ids (0, 2³¹, 1) that increase within each
level; and a first `get_or_allocate` on an untouched coordinate of a concrete
builder returns the fresh level-0 id 5. -/
theorem alpha_tile_id_allocation_witness :
    List.Pairwise (fun a b : Fin 2 × Nat => a.2 ≠ b.2 ∧ (a.1 = b.1 → a.2 < b.2))
      (([0, 1, 0] : List (Fin 2)).zip
        (runAllocs { level0 := 0, level1 := 0 } [0, 1, 0]).1) ∧
    (ObjectBuilderS.getOrAllocateAlphaTileIndex
        { tileBounds := { originX := 0, originY := 0, width := 1, height := 1 },
          backdrops := [0], tiles := [defaultTile], fills := [] }
        { level0 := 5, level1 := 7 } 0 0).1 = 5 := by
  constructor
  · exact alpha_tile_id_allocation.1 { level0 := 0, level1 := 0 } [0, 1, 0] (by decide)
  · exact (alpha_tile_id_allocation.2
      { tileBounds := { originX := 0, originY := 0, width := 1, height := 1 },
        backdrops := [0], tiles := [defaultTile], fills := [] }
      { level0 := 5, level1 := 7 } 0 0 (by decide) (by decide) (by decide)).1

theorem applyClipDedup_drawCommands (st : TileBatchBuilderS K) (c : Option Nat) :
    (applyClipDedup st c).drawCommands = st.drawCommands := by
  cases c with
  | none => rfl
  | some cid =>
    simp only [applyClipDedup]
    split <;> rfl

theorem applyClipDedup_prepareCommands (st : TileBatchBuilderS K) (c : Option Nat) :
    (applyClipDedup st c).prepareCommands = st.prepareCommands := by
  cases c with
  | none => rfl
  | some cid =>
    simp only [applyClipDedup]
    split <;> rfl

theorem stepDrawPath_none [DecidableEq K] (st : TileBatchBuilderS K) (p : BuiltDrawPathS K) :
    stepDrawPath st none p =
      (applyClipDedup { st with nextBatchId := st.nextBatchId + 1 } p.clipPathId,
       some (st.nextBatchId, p.key)) := rfl

theorem stepDrawPath_same [DecidableEq K] (st : TileBatchBuilderS K) (id : Nat) (k : K)
    (p : BuiltDrawPathS K) (h : p.key = k) :
    stepDrawPath st (some (id, k)) p = (applyClipDedup st p.clipPathId, some (id, k)) := by
  simp [stepDrawPath, h]

theorem stepDrawPath_flush [DecidableEq K] (st : TileBatchBuilderS K) (id : Nat) (k : K)
    (p : BuiltDrawPathS K) (h : ¬ p.key = k) :
    stepDrawPath st (some (id, k)) p =
      (applyClipDedup
        { st with prepareCommands := st.prepareCommands ++ [.prepareTiles id],
                  drawCommands := st.drawCommands ++ [.drawTiles id k],
                  nextBatchId := st.nextBatchId + 1 } p.clipPathId,
       some (st.nextBatchId, p.key)) := by
  simp [stepDrawPath, flushBatches, h]

theorem buildItemAux_count_some [DecidableEq K] (ps : List (BuiltDrawPathS K))
    (st : TileBatchBuilderS K) (id : Nat) (k : K) :
    (buildItemAux st (some (id, k)) ps).drawCommands.countP isDrawTiles =
      st.drawCommands.countP isDrawTiles + 1 + runCountCont k (ps.map (fun p => p.key)) := by
  induction ps generalizing st id k with
  | nil =>
    simp [buildItemAux, flushBatches, List.countP_append, isDrawTiles, runCountCont,
          List.countP_cons]
  | cons p t ih =>
    by_cases h : p.key = k
    · simp only [buildItemAux]
      rw [stepDrawPath_same st id k p h]
      rw [ih (applyClipDedup st p.clipPathId) id k]
      rw [applyClipDedup_drawCommands]
      simp [runCountCont, h]
    · simp only [buildItemAux]
      rw [stepDrawPath_flush st id k p h]
      rw [ih _ st.nextBatchId p.key]
      rw [applyClipDedup_drawCommands]
      simp only [List.map_cons, runCountCont]
      rw [if_neg (fun hc => h hc.symm)]
      simp [List.countP_append, List.countP_cons, isDrawTiles]
      omega

theorem buildItemAux_count_none [DecidableEq K] (ps : List (BuiltDrawPathS K))
    (st : TileBatchBuilderS K) :
    (buildItemAux st none ps).drawCommands.countP isDrawTiles =
      st.drawCommands.countP isDrawTiles + runCount (ps.map (fun p => p.key)) := by
  cases ps with
  | nil => simp [buildItemAux, flushBatches, runCount]
  | cons p t =>
    simp only [buildItemAux]
    rw [stepDrawPath_none]
    rw [buildItemAux_count_some t _ st.nextBatchId p.key]
    rw [applyClipDedup_drawCommands]
    simp [runCount]
    omega

/-- **C4.** Within a single `DrawPaths` display item, the number of
`DrawTiles` commands queued equals the number of maximal runs of consecutive
draw paths agreeing on the {color texture, filter, blend mode} triple (the
batch is reused while the triple matches and flushed when it changes), not
the number of draw paths. -/
theorem draw_tiles_batch_count {K : Type} [DecidableEq K] (st : TileBatchBuilderS K)
    (ps : List (BuiltDrawPathS K)) :
    (buildTileBatchesForDrawPathDisplayItem st ps).drawCommands.countP isDrawTiles =
      st.drawCommands.countP isDrawTiles + runCount (ps.map (fun p => p.key)) :=
  buildItemAux_count_none ps st

/-- **C4 witness.** Four draw paths with triples 5, 5, 7, 5 — three maximal
runs — queue exactly three `DrawTiles` commands. -/
theorem draw_tiles_batch_count_witness :
    (buildTileBatchesForDrawPathDisplayItem (TileBatchBuilderS.initial Nat)
        [{ key := 5, clipPathId := none }, { key := 5, clipPathId := none },
         { key := 7, clipPathId := none }, { key := 5, clipPathId := none }]).drawCommands.countP
        isDrawTiles = 3 := by
  rw [draw_tiles_batch_count]
  decide

theorem buildItemAux_inv [DecidableEq K] (ps : List (BuiltDrawPathS K))
    (st : TileBatchBuilderS K) (cur : Option (Nat × K))
    (h1 : ∀ bId k2, RenderCmdB.drawTiles bId k2 ∈ st.drawCommands →
      RenderCmdB.prepareTiles bId ∈ st.prepareCommands)
    (h2 : ∀ c ∈ st.prepareCommands, ∃ bId, c = RenderCmdB.prepareTiles bId) :
    (∀ bId k2, RenderCmdB.drawTiles bId k2 ∈ (buildItemAux st cur ps).drawCommands →
      RenderCmdB.prepareTiles bId ∈ (buildItemAux st cur ps).prepareCommands) ∧
    (∀ c ∈ (buildItemAux st cur ps).prepareCommands,
      ∃ bId, c = RenderCmdB.prepareTiles bId) := by
  induction ps generalizing st cur with
  | nil =>
    cases cur with
    | none => exact ⟨h1, h2⟩
    | some pair =>
      obtain ⟨id, k⟩ := pair
      simp only [buildItemAux, flushBatches]
      constructor
      · intro bId k2 hmem
        rcases List.mem_append.mp hmem with hmem | hmem
        · exact List.mem_append_left _ (h1 bId k2 hmem)
        · have hx := List.mem_singleton.mp hmem
          injection hx with hb hk
          subst hb
          exact List.mem_append_right _ (List.mem_singleton.mpr rfl)
      · intro c hc
        rcases List.mem_append.mp hc with hc | hc
        · exact h2 c hc
        · exact ⟨id, List.mem_singleton.mp hc⟩
  | cons p t ih =>
    cases cur with
    | none =>
      simp only [buildItemAux]
      rw [stepDrawPath_none]
      exact ih _ _
        (by rw [applyClipDedup_drawCommands, applyClipDedup_prepareCommands]; exact h1)
        (by rw [applyClipDedup_prepareCommands]; exact h2)
    | some pair =>
      obtain ⟨id, k⟩ := pair
      by_cases h : p.key = k
      · simp only [buildItemAux]
        rw [stepDrawPath_same st id k p h]
        exact ih _ _
          (by rw [applyClipDedup_drawCommands, applyClipDedup_prepareCommands]; exact h1)
          (by rw [applyClipDedup_prepareCommands]; exact h2)
      · simp only [buildItemAux]
        rw [stepDrawPath_flush st id k p h]
        refine ih _ _ ?_ ?_
        · rw [applyClipDedup_drawCommands, applyClipDedup_prepareCommands]
          intro bId k2 hmem
          rcases List.mem_append.mp hmem with hmem | hmem
          · exact List.mem_append_left _ (h1 bId k2 hmem)
          · have hx := List.mem_singleton.mp hmem
            injection hx with hb hk
            subst hb
            exact List.mem_append_right _ (List.mem_singleton.mpr rfl)
        · rw [applyClipDedup_prepareCommands]
          intro c hc
          rcases List.mem_append.mp hc with hc | hc
          · exact h2 c hc
          · exact ⟨id, List.mem_singleton.mp hc⟩

theorem buildDisplayList_inv [DecidableEq K] (dl : List (DisplayItemS K))
    (st : TileBatchBuilderS K)
    (h1 : ∀ bId k2, RenderCmdB.drawTiles bId k2 ∈ st.drawCommands →
      RenderCmdB.prepareTiles bId ∈ st.prepareCommands)
    (h2 : ∀ c ∈ st.prepareCommands, ∃ bId, c = RenderCmdB.prepareTiles bId) :
    (∀ bId k2, RenderCmdB.drawTiles bId k2 ∈ (buildDisplayList st dl).drawCommands →
      RenderCmdB.prepareTiles bId ∈ (buildDisplayList st dl).prepareCommands) ∧
    (∀ c ∈ (buildDisplayList st dl).prepareCommands,
      ∃ bId, c = RenderCmdB.prepareTiles bId) := by
  induction dl generalizing st with
  | nil => exact ⟨h1, h2⟩
  | cons item rest ih =>
    cases item with
    | pushRenderTarget rid =>
      refine ih _ ?_ h2
      intro bId k2 hmem
      simp only [processDisplayItem] at hmem ⊢
      rcases List.mem_append.mp hmem with hmem | hmem
      · exact h1 bId k2 hmem
      · simp at hmem
    | popRenderTarget =>
      refine ih _ ?_ h2
      intro bId k2 hmem
      simp only [processDisplayItem] at hmem ⊢
      rcases List.mem_append.mp hmem with hmem | hmem
      · exact h1 bId k2 hmem
      · simp at hmem
    | drawPaths ps =>
      have hstep := buildItemAux_inv ps st none h1 h2
      exact ih _ hstep.1 hstep.2

theorem sendTo_ordering [DecidableEq K] (st : TileBatchBuilderS K)
    (h1 : ∀ bId k2, RenderCmdB.drawTiles bId k2 ∈ st.drawCommands →
      RenderCmdB.prepareTiles bId ∈ st.prepareCommands)
    (h2 : ∀ c ∈ st.prepareCommands, ∃ bId, c = RenderCmdB.prepareTiles bId)
    (bId : Nat) (k : K) (i : Nat)
    (hcmd : st.sendTo[i]? = some (RenderCmdB.drawTiles bId k)) :
    ∃ j, j < i ∧ st.sendTo[j]? = some (RenderCmdB.prepareTiles bId) := by
  have hP : ∀ c ∈ (if st.clipBatchPathCount > 0 then [RenderCmdB.prepareTiles 0]
      else ([] : List (RenderCmdB K))), ∃ b2 : Nat, c = RenderCmdB.prepareTiles b2 := by
    split
    · intro c hcm
      exact ⟨0, List.mem_singleton.mp hcm⟩
    · intro c hcm
      simp at hcm
  simp only [TileBatchBuilderS.sendTo] at hcmd ⊢
  revert hP hcmd
  generalize (if st.clipBatchPathCount > 0 then [RenderCmdB.prepareTiles 0]
      else ([] : List (RenderCmdB K))) = clipPart
  intro hcmd hP
  rw [List.getElem?_append] at hcmd
  by_cases hlt : i < (clipPart ++ st.prepareCommands).length
  · rw [if_pos hlt] at hcmd
    exfalso
    have hmem : RenderCmdB.drawTiles bId k ∈ clipPart ++ st.prepareCommands :=
      List.mem_iff_getElem?.mpr ⟨i, hcmd⟩
    rcases List.mem_append.mp hmem with hm | hm
    · obtain ⟨b2, hb2⟩ := hP _ hm
      simp at hb2
    · obtain ⟨b2, hb2⟩ := h2 _ hm
      simp at hb2
  · rw [if_neg hlt] at hcmd
    have hmem : RenderCmdB.drawTiles bId k ∈ st.drawCommands :=
      List.mem_iff_getElem?.mpr ⟨_, hcmd⟩
    have hprep := h1 bId k hmem
    obtain ⟨j0, hj0⟩ := List.mem_iff_getElem?.mp hprep
    have hj0lt : j0 < st.prepareCommands.length := (List.getElem?_eq_some.mp hj0).1
    have hL1 : (clipPart ++ st.prepareCommands).length =
        clipPart.length + st.prepareCommands.length := by
      simp
    refine ⟨clipPart.length + j0, by omega, ?_⟩
    rw [List.getElem?_append, if_pos (by omega), List.getElem?_append,
        if_neg (by omega)]
    simpa using hj0

/-- **C5.** In the command stream produced by the tile batch builder and
`send_to`, every `DrawTiles` command referencing batch id `B` is preceded by a
`PrepareTiles` command with batch id `B`; moreover when the clip batch (batch
id 0) is non-empty its `PrepareTiles` is the very first tile command sent. -/
theorem prepare_tiles_precede_draw_tiles {K : Type} [DecidableEq K]
    (dl : List (DisplayItemS K)) :
    (∀ (bId : Nat) (k : K) (i : Nat),
      (buildDisplayList (TileBatchBuilderS.initial K) dl).sendTo[i]? =
        some (RenderCmdB.drawTiles bId k) →
      ∃ j, j < i ∧
        (buildDisplayList (TileBatchBuilderS.initial K) dl).sendTo[j]? =
          some (RenderCmdB.prepareTiles bId)) ∧
    (0 < (buildDisplayList (TileBatchBuilderS.initial K) dl).clipBatchPathCount →
      ((buildDisplayList (TileBatchBuilderS.initial K) dl).sendTo).head? =
        some (RenderCmdB.prepareTiles 0)) := by
  have hinv := buildDisplayList_inv dl (TileBatchBuilderS.initial K)
    (by intro bId k2 hmem; simp [TileBatchBuilderS.initial] at hmem)
    (by intro c hc; simp [TileBatchBuilderS.initial] at hc)
  constructor
  · intro bId k i hcmd
    exact sendTo_ordering _ hinv.1 hinv.2 bId k i hcmd
  · intro hc
    simp only [TileBatchBuilderS.sendTo, if_pos hc]
    rfl

/-- **C5 witness.** A concrete display list with two draw paths in distinct
batches (keys 4 and 6, batch ids 1 and 2): in the sent stream
`[prepare 1, prepare 2, draw 1, draw 2]`, the `DrawTiles` for batch 2 at
index 3 is preceded by the `PrepareTiles` for batch 2. -/
theorem prepare_tiles_precede_draw_tiles_witness :
    ∃ j, j < 3 ∧
      (buildDisplayList (TileBatchBuilderS.initial Nat)
          [DisplayItemS.drawPaths
            [{ key := 4, clipPathId := none }, { key := 6, clipPathId := none }]]).sendTo[j]? =
        some (RenderCmdB.prepareTiles 2) :=
  (prepare_tiles_precede_draw_tiles
      [DisplayItemS.drawPaths
        [{ key := 4, clipPathId := none }, { key := 6, clipPathId := none }]]).1
    2 6 3 (by decide)

theorem blendMode_needs_iff_mem (m : BlendModeS) :
    m.needsReadableFramebuffer = readableDestinationBlendModes.contains m := by
  cases m <;> rfl

theorem needsReadable_loop_eq_spec (items : List DisplayItemC) (blends : List BlendModeS)
    (n : Int) (hn : 0 ≤ n) (hok : nestingOk n items = true) :
    needsReadableFramebufferLoop blends n items = specNeedsReadable blends n items := by
  induction items generalizing n with
  | nil => rfl
  | cons item rest ih =>
    cases item with
    | pushRenderTarget rid =>
      simp only [needsReadableFramebufferLoop, specNeedsReadable]
      exact ih (n + 1) (by omega) (by simpa [nestingOk] using hok)
    | popRenderTarget =>
      simp only [nestingOk, Bool.and_eq_true, decide_eq_true_eq] at hok
      simp only [needsReadableFramebufferLoop, specNeedsReadable]
      exact ih (n - 1) hok.1 hok.2
    | drawPaths a b =>
      have hok2 : nestingOk n rest = true := by simpa [nestingOk] using hok
      have hany : (List.range' a (b - a)).any
            (fun i => (blends.getD i .srcOver).needsReadableFramebuffer) =
          (List.range' a (b - a)).any
            (fun i => readableDestinationBlendModes.contains (blends.getD i .srcOver)) := by
        simp only [blendMode_needs_iff_mem]
      by_cases hpos : n > 0
      · have hne : ¬ n = 0 := by omega
        simp only [needsReadableFramebufferLoop, specNeedsReadable, if_pos hpos,
                   decide_eq_false hne, Bool.false_and, Bool.false_or]
        exact ih n hn hok2
      · have heq : n = 0 := by omega
        subst heq
        simp only [needsReadableFramebufferLoop, specNeedsReadable]
        rw [if_neg hpos]
        rw [show (decide True) = true from rfl, Bool.true_and]
        rw [← hany]
        by_cases hany2 : (List.range' a (b - a)).any
            (fun i => (blends.getD i .srcOver).needsReadableFramebuffer) = true
        · rw [if_pos hany2, hany2]
          rfl
        · rw [if_neg hany2]
          have : (List.range' a (b - a)).any
              (fun i => (blends.getD i .srcOver).needsReadableFramebuffer) = false := by
            simpa using hany2
          rw [this, Bool.false_or]
          exact ih 0 (le_refl 0) hok2

/-- **C7.** The first command emitted by `SceneBuilder::build` is `Start`,
with `path_count` equal to the number of clip paths plus the number of draw
paths, and with `needs_readable_framebuffer` true exactly when some
`DrawPaths` display item at render-target nesting depth 0 contains a draw
path whose blend mode is one of the fifteen readable-destination modes
(Lighten, Darken, Multiply, Screen, HardLight, Overlay, ColorDodge,
ColorBurn, SoftLight, Difference, Exclusion, Hue, Saturation, Color,
Luminosity); the hypothesis requires the display list's render-target
push/pop nesting to be well formed (never negative). -/
theorem scene_builder_start_command (scene : SceneS) (rest : List BuildCmd)
    (hok : nestingOk 0 scene.displayList = true) :
    (sceneBuilderCommandStream scene rest).head? =
      some (BuildCmd.start (scene.clipPathCount + scene.drawPathBlendModes.length)
        (sceneNeedsReadableFramebuffer scene)) ∧
    sceneNeedsReadableFramebuffer scene =
      specNeedsReadable scene.drawPathBlendModes 0 scene.displayList :=
  ⟨rfl, needsReadable_loop_eq_spec scene.displayList scene.drawPathBlendModes 0
    (le_refl 0) hok⟩

/-- **C7 witness.** A concrete scene: one clip path, two draw paths
(SrcOver, Multiply), display list `[push, draw {0}, pop, draw {1}]`.  The
`Start` command carries path count 3, and the readable-framebuffer scan agrees
with the depth-0 specification reading (the nested SrcOver is ignored; the
top-level Multiply triggers it). -/
theorem scene_builder_start_command_witness :
    ((sceneBuilderCommandStream
        { clipPathCount := 1,
          drawPathBlendModes := [BlendModeS.srcOver, BlendModeS.multiply],
          displayList := [DisplayItemC.pushRenderTarget 0, DisplayItemC.drawPaths 0 1,
                          DisplayItemC.popRenderTarget, DisplayItemC.drawPaths 1 2] }
        []).head? =
      some (BuildCmd.start 3
        (sceneNeedsReadableFramebuffer
          { clipPathCount := 1,
            drawPathBlendModes := [BlendModeS.srcOver, BlendModeS.multiply],
            displayList := [DisplayItemC.pushRenderTarget 0, DisplayItemC.drawPaths 0 1,
                            DisplayItemC.popRenderTarget, DisplayItemC.drawPaths 1 2] }))) ∧
    sceneNeedsReadableFramebuffer
        { clipPathCount := 1,
          drawPathBlendModes := [BlendModeS.srcOver, BlendModeS.multiply],
          displayList := [DisplayItemC.pushRenderTarget 0, DisplayItemC.drawPaths 0 1,
                          DisplayItemC.popRenderTarget, DisplayItemC.drawPaths 1 2] } =
      specNeedsReadable [BlendModeS.srcOver, BlendModeS.multiply] 0
        [DisplayItemC.pushRenderTarget 0, DisplayItemC.drawPaths 0 1,
         DisplayItemC.popRenderTarget, DisplayItemC.drawPaths 1 2] :=
  scene_builder_start_command
    { clipPathCount := 1,
      drawPathBlendModes := [BlendModeS.srcOver, BlendModeS.multiply],
      displayList := [DisplayItemC.pushRenderTarget 0, DisplayItemC.drawPaths 0 1,
                      DisplayItemC.popRenderTarget, DisplayItemC.drawPaths 1 2] }
    [] (by decide)
